import Mathlib

/-!
Verification of the `graph` class of python-graph (src/graph/__init__.py).

The store keeps two Python dictionaries: `self.nodes` mapping each node to
its neighbour list, and `self.weights` mapping ordered pairs to weights.
We embed dictionaries as association lists with first-match lookup,
in-place replacement on update, and first-binding deletion; Python lists
are Lean lists, with `append` adding at the end and `remove` deleting the
first occurrence.  Dictionary subscription of a missing key raises
`KeyError` and `list.remove` of a missing element raises `ValueError`;
operations therefore return the mutated state together with an optional
error, and the state returned alongside an error reflects exactly the
mutations performed before the raise, as in Python.
-/

namespace PyGraph

/-- Python exceptions that the modelled methods can raise. -/
inductive PyErr where
  | keyError
  | valueError
deriving DecidableEq, Repr

/-- Dictionary lookup `d[k]`: value of the first binding of `k`, if any. -/
def dictGet {α β : Type} [DecidableEq α] : List (α × β) → α → Option β
  | [], _ => none
  | (k1, v1) :: d, k => if k1 = k then some v1 else dictGet d k

/-- Dictionary update `d[k] = v`: replace the first binding of `k` in place,
or append a new binding when `k` is absent. -/
def dictSet {α β : Type} [DecidableEq α] : List (α × β) → α → β → List (α × β)
  | [], k, v => [(k, v)]
  | (k1, v1) :: d, k, v => if k1 = k then (k, v) :: d else (k1, v1) :: dictSet d k v

/-- Dictionary deletion `del d[k]`: drop the first binding of `k`. -/
def dictDel {α β : Type} [DecidableEq α] : List (α × β) → α → List (α × β)
  | [], _ => []
  | (k1, v1) :: d, k => if k1 = k then d else (k1, v1) :: dictDel d k

/-- Python `list.remove`: delete the first occurrence of `v`. -/
def listRemove {α : Type} [DecidableEq α] : List α → α → List α
  | [], _ => []
  | x :: xs, v => if x = v then xs else x :: listRemove xs v

/-- The state of a `graph` object: the `nodes` adjacency dictionary and the
`weights` dictionary, exactly the two fields set up by `__init__`. -/
structure graph where
  nodes : List (Nat × List Nat)
  weights : List ((Nat × Nat) × Int)
deriving DecidableEq, Repr

/-- `graph.__init__`: both dictionaries start empty. -/
def emptyGraph : graph := ⟨[], []⟩

/-- `graph.add_nodes(nodelist)`: for each listed node, `self.nodes[each] = []`. -/
def add_nodes (nodelist : List Nat) (g : graph) : graph :=
  nodelist.foldl (fun g1 each => { g1 with nodes := dictSet g1.nodes each [] }) g

/-- `graph.get_node(node)`: `return self.nodes[node]` (None models KeyError). -/
def get_node (node : Nat) (g : graph) : Option (List Nat) :=
  dictGet g.nodes node

/-- `graph.has_node(node)`: `return self.nodes.has_key(node)`. -/
def has_node (node : Nat) (g : graph) : Bool :=
  (dictGet g.nodes node).isSome

/-- `graph.add_edge(u, v, wt)`:
`if (v not in self.nodes[u]): append v to nodes[u]; append u to nodes[v];
weights[(u,v)] = wt; weights[(v,u)] = wt`.  The lookup `self.nodes[u]`
raises KeyError when `u` is absent; `self.nodes[v]` raises KeyError when
`v` is absent, after `v` has already been appended to `nodes[u]`. -/
def add_edge (u v : Nat) (wt : Int) (g : graph) : graph × Option PyErr :=
  match dictGet g.nodes u with
  | none => (g, some PyErr.keyError)
  | some lu =>
    if v ∈ lu then (g, none)
    else
      let g1 : graph := { g with nodes := dictSet g.nodes u (lu ++ [v]) }
      match dictGet g1.nodes v with
      | none => (g1, some PyErr.keyError)
      | some lv =>
        let g2 : graph := { g1 with nodes := dictSet g1.nodes v (lv ++ [u]) }
        let g3 : graph := { g2 with weights := dictSet g2.weights (u, v) wt }
        ({ g3 with weights := dictSet g3.weights (v, u) wt }, none)

/-- `graph.add_arrow(u, v, wt)`:
`if (v not in self.nodes[u]): append v to nodes[u]; weights[(u,v)] = wt`.
Only `u` is looked up in `self.nodes`; `v` is never checked. -/
def add_arrow (u v : Nat) (wt : Int) (g : graph) : graph × Option PyErr :=
  match dictGet g.nodes u with
  | none => (g, some PyErr.keyError)
  | some lu =>
    if v ∈ lu then (g, none)
    else
      ({ g with nodes := dictSet g.nodes u (lu ++ [v]),
                weights := dictSet g.weights (u, v) wt }, none)

/-- `graph.del_edge(u, v)`:
`if (v in self.nodes[u]): nodes[u].remove(v); nodes[v].remove(u);
del weights[(u,v)]; del weights[(v,u)]`.  `nodes[v]` can raise KeyError,
`remove(u)` can raise ValueError, and each `del` can raise KeyError; the
mutations already performed persist, as in Python. -/
def del_edge (u v : Nat) (g : graph) : graph × Option PyErr :=
  match dictGet g.nodes u with
  | none => (g, some PyErr.keyError)
  | some lu =>
    if v ∈ lu then
      let g1 : graph := { g with nodes := dictSet g.nodes u (listRemove lu v) }
      match dictGet g1.nodes v with
      | none => (g1, some PyErr.keyError)
      | some lv =>
        if u ∈ lv then
          let g2 : graph := { g1 with nodes := dictSet g1.nodes v (listRemove lv u) }
          match dictGet g2.weights (u, v) with
          | none => (g2, some PyErr.keyError)
          | some _ =>
            let g3 : graph := { g2 with weights := dictDel g2.weights (u, v) }
            match dictGet g3.weights (v, u) with
            | none => (g3, some PyErr.keyError)
            | some _ => ({ g3 with weights := dictDel g3.weights (v, u) }, none)
        else (g1, some PyErr.valueError)
    else (g, none)

/-- `graph.del_arrow(u, v)`:
`if (v in self.nodes[u]): nodes[u].remove(v); del weights[(u,v)]`. -/
def del_arrow (u v : Nat) (g : graph) : graph × Option PyErr :=
  match dictGet g.nodes u with
  | none => (g, some PyErr.keyError)
  | some lu =>
    if v ∈ lu then
      let g1 : graph := { g with nodes := dictSet g.nodes u (listRemove lu v) }
      match dictGet g1.weights (u, v) with
      | none => (g1, some PyErr.keyError)
      | some _ => ({ g1 with weights := dictDel g1.weights (u, v) }, none)
    else (g, none)

/-- `graph.get_arrow_weight(u, v)`: `return self.weights[(u, v)]`. -/
def get_arrow_weight (u v : Nat) (g : graph) : Option Int :=
  dictGet g.weights (u, v)

/-- `graph.get_edge_weight(u, v)`: `return self.weights[(u, v)]`. -/
def get_edge_weight (u v : Nat) (g : graph) : Option Int :=
  dictGet g.weights (u, v)

/-- `graph.has_arrow(u, v)`: `return self.weights.has_key((u,v))`. -/
def has_arrow (u v : Nat) (g : graph) : Bool :=
  (dictGet g.weights (u, v)).isSome

/-- `graph.has_edge(u, v)`:
`return self.weights.has_key((u,v)) and self.weights.has_key((v,u))`. -/
def has_edge (u v : Nat) (g : graph) : Bool :=
  (dictGet g.weights (u, v)).isSome && (dictGet g.weights (v, u)).isSome

/-- The spec's notion of an arrow (section 3): `head` appears in `tail`'s
neighbour list and a weight exists for `(tail, head)`. -/
def arrow_exists (g : graph) (u v : Nat) : Prop :=
  ∃ lu, dictGet g.nodes u = some lu ∧ v ∈ lu ∧ has_arrow u v g = true

/-- The spec's notion of an edge (section 3): a symmetric pair of arrows
`(u,v)` and `(v,u)` with identical weight. -/
def edge_exists (g : graph) (u v : Nat) : Prop :=
  arrow_exists g u v ∧ arrow_exists g v u ∧
    get_edge_weight u v g = get_edge_weight v u g

instance (g : graph) (u v : Nat) : Decidable (arrow_exists g u v) := by
  unfold arrow_exists
  cases dictGet g.nodes u with
  | none => exact Decidable.isFalse (by simp)
  | some lu => exact decidable_of_iff (v ∈ lu ∧ has_arrow u v g = true) (by simp)

instance (g : graph) (u v : Nat) : Decidable (edge_exists g u v) := by
  unfold edge_exists
  infer_instance

/-- A Python dictionary cannot bind the same key twice; association lists
produced by the modelled operations keep this invariant. -/
def keysNodup {α β : Type} (d : List (α × β)) : Prop :=
  (d.map Prod.fst).Nodup

instance {α β : Type} [DecidableEq α] (d : List (α × β)) :
    Decidable (keysNodup d) := by
  unfold keysNodup
  infer_instance

theorem dictGet_dictSet_self {α β : Type} [DecidableEq α]
    (d : List (α × β)) (k : α) (v : β) :
    dictGet (dictSet d k v) k = some v := by
  induction d with
  | nil => simp [dictGet, dictSet]
  | cons p d ih =>
    obtain ⟨k1, v1⟩ := p
    by_cases h : k1 = k
    · simp [dictGet, dictSet, h]
    · simp [dictGet, dictSet, h, ih]

theorem dictGet_dictSet_ne {α β : Type} [DecidableEq α]
    (d : List (α × β)) (k k1 : α) (v : β) (h : k1 ≠ k) :
    dictGet (dictSet d k v) k1 = dictGet d k1 := by
  induction d with
  | nil => simp [dictGet, dictSet, Ne.symm h]
  | cons p d ih =>
    obtain ⟨k2, v2⟩ := p
    by_cases h2 : k2 = k
    · subst h2
      simp [dictGet, dictSet, Ne.symm h]
    · by_cases h3 : k2 = k1 <;> simp [dictGet, dictSet, h2, h3, ih, h]

theorem dictGet_dictDel_ne {α β : Type} [DecidableEq α]
    (d : List (α × β)) (k k1 : α) (h : k1 ≠ k) :
    dictGet (dictDel d k) k1 = dictGet d k1 := by
  induction d with
  | nil => simp [dictDel]
  | cons p d ih =>
    obtain ⟨k2, v2⟩ := p
    by_cases h2 : k2 = k
    · subst h2
      simp [dictGet, dictDel, Ne.symm h]
    · by_cases h3 : k2 = k1 <;> simp [dictGet, dictDel, h2, h3, ih, h]

theorem dictGet_dictDel_self {α β : Type} [DecidableEq α]
    (d : List (α × β)) (k : α) (hd : keysNodup d) :
    dictGet (dictDel d k) k = none := by
  induction d with
  | nil => simp [dictDel, dictGet]
  | cons p d ih =>
    obtain ⟨k2, v2⟩ := p
    simp only [keysNodup, List.map_cons, List.nodup_cons] at hd
    by_cases h2 : k2 = k
    · subst h2
      simp only [dictDel, if_pos rfl]
      cases hget : dictGet d k2 with
      | none => exact hget
      | some w =>
        exfalso
        apply hd.1
        clear ih hd
        induction d with
        | nil => simp [dictGet] at hget
        | cons q d ihd =>
          obtain ⟨k3, v3⟩ := q
          simp only [dictGet] at hget
          by_cases h3 : k3 = k2
          · simp [h3]
          · simp only [if_neg h3] at hget
            simp [ihd hget]
    · simp [dictDel, dictGet, h2, ih hd.2]

theorem dictSet_keys_subset {α β : Type} [DecidableEq α]
    (d : List (α × β)) (k : α) (v : β) :
    ((dictSet d k v).map Prod.fst : List α) ⊆ k :: d.map Prod.fst := by
  induction d with
  | nil => simp [dictSet]
  | cons p d ih =>
    obtain ⟨k3, v3⟩ := p
    by_cases h3 : k3 = k
    · subst h3
      simp [dictSet]
    · simp only [dictSet, if_neg h3, List.map_cons]
      intro x hx
      simp only [List.mem_cons] at hx ⊢
      rcases hx with hx | hx
      · exact Or.inr (Or.inl hx)
      · rcases List.mem_cons.mp (ih hx) with hx1 | hx1
        · exact Or.inl hx1
        · exact Or.inr (Or.inr hx1)

theorem dictDel_keys_subset {α β : Type} [DecidableEq α]
    (d : List (α × β)) (k : α) :
    ((dictDel d k).map Prod.fst : List α) ⊆ d.map Prod.fst := by
  induction d with
  | nil => simp [dictDel]
  | cons p d ih =>
    obtain ⟨k3, v3⟩ := p
    by_cases h3 : k3 = k
    · simp only [dictDel, if_pos h3, List.map_cons]
      exact List.subset_cons_of_subset k3 (List.Subset.refl _)
    · simp only [dictDel, if_neg h3, List.map_cons]
      exact List.cons_subset_cons k3 ih

theorem keysNodup_dictSet {α β : Type} [DecidableEq α]
    (d : List (α × β)) (k : α) (v : β) (hd : keysNodup d) :
    keysNodup (dictSet d k v) := by
  induction d with
  | nil => simp [dictSet, keysNodup]
  | cons p d ih =>
    obtain ⟨k2, v2⟩ := p
    simp only [keysNodup, List.map_cons, List.nodup_cons] at hd
    by_cases h2 : k2 = k
    · subst h2
      simpa [dictSet, keysNodup] using hd
    · simp only [keysNodup, dictSet, if_neg h2, List.map_cons, List.nodup_cons]
      refine ⟨fun hmem => ?_, ih hd.2⟩
      rcases List.mem_cons.mp (dictSet_keys_subset d k v hmem) with h3 | h3
      · exact h2 h3
      · exact hd.1 h3

theorem keysNodup_dictDel {α β : Type} [DecidableEq α]
    (d : List (α × β)) (k : α) (hd : keysNodup d) :
    keysNodup (dictDel d k) := by
  induction d with
  | nil => simpa [dictDel] using hd
  | cons p d ih =>
    obtain ⟨k2, v2⟩ := p
    simp only [keysNodup, List.map_cons, List.nodup_cons] at hd
    by_cases h2 : k2 = k
    · simpa [dictDel, h2, keysNodup] using hd.2
    · simp only [keysNodup, dictDel, if_neg h2, List.map_cons, List.nodup_cons]
      exact ⟨fun hmem => hd.1 (dictDel_keys_subset d k hmem), ih hd.2⟩

theorem listRemove_append_self {α : Type} [DecidableEq α]
    (l : List α) (v : α) (h : v ∉ l) :
    listRemove (l ++ [v]) v = l := by
  induction l with
  | nil => simp [listRemove]
  | cons x xs ih =>
    simp only [List.mem_cons, not_or] at h
    have hx : ((x :: xs) ++ [v] : List α) = x :: (xs ++ [v]) := rfl
    rw [hx]
    simp only [listRemove, if_neg (Ne.symm h.1)]
    rw [ih h.2]

/-- A successful `add_edge` on distinct present nodes with no prior arrow
from `u` to `v` produces exactly this state: `v` appended to `u`'s list, `u`
appended to `v`'s list, and the weight recorded under both ordered pairs. -/
theorem add_edge_fresh (g : graph) (u v : Nat) (w1 : Int) (lu lv : List Nat)
    (huv : u ≠ v) (hu : dictGet g.nodes u = some lu)
    (hv : dictGet g.nodes v = some lv) (hvl : v ∉ lu) :
    add_edge u v w1 g =
      ({ nodes := dictSet (dictSet g.nodes u (lu ++ [v])) v (lv ++ [u]),
         weights := dictSet (dictSet g.weights (u, v) w1) (v, u) w1 }, none) := by
  have hsome : dictGet (dictSet g.nodes u (lu ++ [v])) v = some lv := by
    rw [dictGet_dictSet_ne _ _ _ _ (Ne.symm huv), hv]
  simp [add_edge, hu, hvl, hsome]

/-- A successful `add_edge` of a self-loop (`u = v`, `u` not yet its own
neighbour) appends `u` twice to its own list and records the weight once. -/
theorem add_edge_self_loop (g : graph) (u : Nat) (w1 : Int) (lu : List Nat)
    (hu : dictGet g.nodes u = some lu) (hvl : u ∉ lu) :
    add_edge u u w1 g =
      ({ nodes := dictSet (dictSet g.nodes u (lu ++ [u])) u ((lu ++ [u]) ++ [u]),
         weights := dictSet (dictSet g.weights (u, u) w1) (u, u) w1 }, none) := by
  have hsome : dictGet (dictSet g.nodes u (lu ++ [u])) u = some (lu ++ [u]) :=
    dictGet_dictSet_self _ _ _
  simp [add_edge, hu, hvl, hsome]

/-- C1 (amended): `add_edge(u,v,w)` and `add_arrow(u,v,w)` fail (KeyError)
leaving the store unchanged when `u` has not been added as a node; but the
presence of `v` is not required by `add_arrow`: whenever `u` is present,
`add_arrow(u,v,w)` raises no error, even when `v` was never added, so an
arrow head recorded in the store need not be a present node. -/
theorem claim1_missing_node_behavior (g : graph) (u v : Nat) (w1 : Int) :
    (dictGet g.nodes u = none →
      add_edge u v w1 g = (g, some PyErr.keyError) ∧
      add_arrow u v w1 g = (g, some PyErr.keyError)) ∧
    (has_node u g = true → (add_arrow u v w1 g).2 = none) := by
  constructor
  · intro hu
    constructor <;> simp [add_edge, add_arrow, hu]
  · intro hu
    rw [has_node, Option.isSome_iff_exists] at hu
    obtain ⟨lu, hlu⟩ := hu
    by_cases hmem : v ∈ lu <;> simp [add_arrow, hlu, hmem]

/-- C1 counterexample: with only node 0 present, `add_arrow(0,1,5)` succeeds
(no error) although node 1 was never added, and records the weight entry for
the pair (0,1), so an arrow endpoint in the store is not a present node —
refuting both the claimed `MissingNodeError` failure of `add_arrow` and the
claimed endpoint-presence invariant. -/
theorem claim1_counterexample :
    (add_arrow 0 1 5 (add_nodes [0] emptyGraph)).2 = none ∧
    has_node 1 (add_arrow 0 1 5 (add_nodes [0] emptyGraph)).1 = false ∧
    has_arrow 0 1 (add_arrow 0 1 5 (add_nodes [0] emptyGraph)).1 = true := by
  decide

/-- Witness for C1 (amended) at concrete inputs: on the empty graph both
operations raise KeyError, and with node 0 present `add_arrow 0 1` raises
no error although 1 is absent. -/
theorem claim1_missing_node_behavior_witness :
    add_edge 0 1 5 emptyGraph = (emptyGraph, some PyErr.keyError) ∧
    add_arrow 0 1 5 emptyGraph = (emptyGraph, some PyErr.keyError) ∧
    (add_arrow 0 1 7 (add_nodes [0] emptyGraph)).2 = none :=
  ⟨((claim1_missing_node_behavior emptyGraph 0 1 5).1 rfl).1,
   ((claim1_missing_node_behavior emptyGraph 0 1 5).1 rfl).2,
   (claim1_missing_node_behavior (add_nodes [0] emptyGraph) 0 1 7).2 (by decide)⟩

/-- C6: when the arrow `(u,v)` is already present, `add_arrow(u,v,w1)` is a
no-op returning the store completely unchanged with no error (so the stored
weight keeps its original value), and likewise `add_edge(u,v,w1)` when the
edge `(u,v)` is already present. -/
theorem claim6_duplicate_add_no_op (g : graph) (u v : Nat) (w1 : Int) :
    (arrow_exists g u v → add_arrow u v w1 g = (g, none)) ∧
    (edge_exists g u v → add_edge u v w1 g = (g, none)) := by
  constructor
  · rintro ⟨lu, hget, hmem, -⟩
    simp [add_arrow, hget, hmem]
  · rintro ⟨⟨lu, hget, hmem, -⟩, -, -⟩
    simp [add_edge, hget, hmem]

/-- Witness for C6: on a concrete graph holding the edge (0,1) of weight 5,
re-adding the arrow or the edge with weight 9 returns the store unchanged. -/
theorem claim6_duplicate_add_no_op_witness :
    add_arrow 0 1 9 (add_edge 0 1 5 (add_nodes [0, 1] emptyGraph)).1
      = ((add_edge 0 1 5 (add_nodes [0, 1] emptyGraph)).1, none) ∧
    add_edge 0 1 9 (add_edge 0 1 5 (add_nodes [0, 1] emptyGraph)).1
      = ((add_edge 0 1 5 (add_nodes [0, 1] emptyGraph)).1, none) :=
  ⟨(claim6_duplicate_add_no_op (add_edge 0 1 5 (add_nodes [0, 1] emptyGraph)).1
      0 1 9).1 (by decide),
   (claim6_duplicate_add_no_op (add_edge 0 1 5 (add_nodes [0, 1] emptyGraph)).1
      0 1 9).2 (by decide)⟩

/-- C9: when `add_edge(u,v,w)` is called with `u` present, `v` absent and
`v` not yet a neighbour of `u`, the call raises KeyError but the store is not
left unchanged: `v` has already been appended to `u`'s neighbour list when
the failure occurs, so the failed call is not atomic. -/
theorem claim9_failed_add_edge_not_atomic (g : graph) (u v : Nat) (w1 : Int)
    (lu : List Nat) (hu : dictGet g.nodes u = some lu)
    (hv : dictGet g.nodes v = none) (hvl : v ∉ lu) :
    add_edge u v w1 g =
      ({ g with nodes := dictSet g.nodes u (lu ++ [v]) }, some PyErr.keyError) ∧
    get_node u (add_edge u v w1 g).1 = some (lu ++ [v]) ∧
    (add_edge u v w1 g).1 ≠ g := by
  have huv : v ≠ u := by
    intro h1
    rw [h1, hu] at hv
    cases hv
  have hg1 : dictGet (dictSet g.nodes u (lu ++ [v])) v = none := by
    rw [dictGet_dictSet_ne _ _ _ _ huv, hv]
  have hstep : add_edge u v w1 g =
      ({ g with nodes := dictSet g.nodes u (lu ++ [v]) }, some PyErr.keyError) := by
    simp [add_edge, hu, hvl, hg1]
  have hafter : get_node u (add_edge u v w1 g).1 = some (lu ++ [v]) := by
    rw [hstep]
    simp [get_node, dictGet_dictSet_self]
  refine ⟨hstep, hafter, ?_⟩
  intro heq
  rw [heq, get_node, hu] at hafter
  simp at hafter

/-- Witness for C9: with only node 0 present, `add_edge 0 1 7` raises
KeyError yet leaves 1 appended to node 0's neighbour list. -/
theorem claim9_failed_add_edge_not_atomic_witness :
    add_edge 0 1 7 (add_nodes [0] emptyGraph) =
      ({ (add_nodes [0] emptyGraph) with
          nodes := dictSet (add_nodes [0] emptyGraph).nodes 0 ([] ++ [1]) },
        some PyErr.keyError) ∧
    get_node 0 (add_edge 0 1 7 (add_nodes [0] emptyGraph)).1 = some ([] ++ [1]) ∧
    (add_edge 0 1 7 (add_nodes [0] emptyGraph)).1 ≠ add_nodes [0] emptyGraph :=
  claim9_failed_add_edge_not_atomic (add_nodes [0] emptyGraph) 0 1 7 []
    (by decide) (by decide) (by decide)

/-- C10: `has_edge(u,v)` is exactly the conjunction of the two weight-key
checks `has_arrow(u,v)` and `has_arrow(v,u)` — no adjacency or weight-equality
check — so two separate arrows `add_arrow(u,v,w1)` and `add_arrow(v,u,w2)`
with `w1 ≠ w2` make `has_edge(u,v)` true while the two stored weights stay
distinct. -/
theorem claim10_has_edge_is_two_weight_keys (g : graph) (u v : Nat)
    (w1 w2 : Int) (lu lv : List Nat) :
    has_edge u v g = (has_arrow u v g && has_arrow v u g) ∧
    (dictGet g.nodes u = some lu → dictGet g.nodes v = some lv →
      v ∉ lu → u ∉ lv → u ≠ v → w1 ≠ w2 →
      has_edge u v (add_arrow v u w2 (add_arrow u v w1 g).1).1 = true ∧
      get_arrow_weight u v (add_arrow v u w2 (add_arrow u v w1 g).1).1 = some w1 ∧
      get_arrow_weight v u (add_arrow v u w2 (add_arrow u v w1 g).1).1 = some w2) := by
  refine ⟨rfl, ?_⟩
  intro hu hv hvl hul huv hw
  have h1 : (add_arrow u v w1 g).1 =
      { g with nodes := dictSet g.nodes u (lu ++ [v]),
               weights := dictSet g.weights (u, v) w1 } := by
    simp [add_arrow, hu, hvl]
  have hv1 : dictGet (dictSet g.nodes u (lu ++ [v])) v = some lv := by
    rw [dictGet_dictSet_ne _ _ _ _ (Ne.symm huv), hv]
  have h2 : (add_arrow v u w2 (add_arrow u v w1 g).1).1 =
      { g with
          nodes := dictSet (dictSet g.nodes u (lu ++ [v])) v (lv ++ [u]),
          weights := dictSet (dictSet g.weights (u, v) w1) (v, u) w2 } := by
    rw [h1]
    simp [add_arrow, hv1, hul]
  have hpair : ((u, v) : Nat × Nat) ≠ (v, u) :=
    fun hp => huv (congrArg Prod.fst hp)
  have hget1 : get_arrow_weight u v (add_arrow v u w2 (add_arrow u v w1 g).1).1
      = some w1 := by
    rw [h2]
    simp only [get_arrow_weight]
    rw [dictGet_dictSet_ne _ _ _ _ hpair, dictGet_dictSet_self]
  have hget2 : get_arrow_weight v u (add_arrow v u w2 (add_arrow u v w1 g).1).1
      = some w2 := by
    rw [h2]
    simp only [get_arrow_weight]
    rw [dictGet_dictSet_self]
  refine ⟨?_, hget1, hget2⟩
  simp only [get_arrow_weight] at hget1 hget2
  simp [has_edge, hget1, hget2]

/-- Witness for C10: two arrows of distinct weights 3 and 8 between present
nodes 0 and 1 make `has_edge 0 1` true. -/
theorem claim10_has_edge_is_two_weight_keys_witness :
    has_edge 0 1
      (add_arrow 1 0 8 (add_arrow 0 1 3 (add_nodes [0, 1] emptyGraph)).1).1
      = true ∧
    get_arrow_weight 0 1
      (add_arrow 1 0 8 (add_arrow 0 1 3 (add_nodes [0, 1] emptyGraph)).1).1
      = some 3 ∧
    get_arrow_weight 1 0
      (add_arrow 1 0 8 (add_arrow 0 1 3 (add_nodes [0, 1] emptyGraph)).1).1
      = some 8 :=
  (claim10_has_edge_is_two_weight_keys (add_nodes [0, 1] emptyGraph) 0 1 3 8
    [] []).2 (by decide) (by decide) (by decide) (by decide) (by decide)
    (by decide)

/-- C2 (amended): weight lookup fails exactly when no weight entry is
recorded for the ordered pair `(u,v)`, i.e. exactly when `has_arrow(u,v)` is
false; whether `v` is in `u`'s neighbour list is not consulted, and
`get_edge_weight` and `get_arrow_weight` are the same lookup and never
return a default weight. -/
theorem claim2_weight_lookup_keyed_on_weights (g : graph) (u v : Nat) :
    (get_arrow_weight u v g = none ↔ has_arrow u v g = false) ∧
    (get_edge_weight u v g = none ↔ has_arrow u v g = false) ∧
    get_edge_weight u v g = get_arrow_weight u v g := by
  refine ⟨?_, ?_, rfl⟩ <;>
    cases h : dictGet g.weights (u, v) <;>
      simp [get_arrow_weight, get_edge_weight, has_arrow, h]

/-- C2 counterexample: after `add_nodes [0,1]; add_arrow 0 1 5; add_nodes [0]`
no arrow from 0 to 1 exists (1 is no longer in 0's neighbour list), yet both
weight lookups succeed and return 5 instead of failing. -/
theorem claim2_counterexample :
    ¬ arrow_exists
        (add_nodes [0] (add_arrow 0 1 5 (add_nodes [0, 1] emptyGraph)).1) 0 1 ∧
    get_arrow_weight 0 1
        (add_nodes [0] (add_arrow 0 1 5 (add_nodes [0, 1] emptyGraph)).1)
      = some 5 ∧
    get_edge_weight 0 1
        (add_nodes [0] (add_arrow 0 1 5 (add_nodes [0, 1] emptyGraph)).1)
      = some 5 := by
  decide

/-- C3 (amended): re-adding a present node `u` resets `u`'s neighbour list to
empty, but the weight dictionary is left entirely untouched and so is every
other node's neighbour list; in particular adjacency entries pointing to `u`
and weight entries involving `u` survive. -/
theorem claim3_readd_resets_only_own_adjacency (g : graph) (u : Nat)
    (h : has_node u g = true) :
    get_node u (add_nodes [u] g) = some [] ∧
    (add_nodes [u] g).weights = g.weights ∧
    ∀ x, x ≠ u → get_node x (add_nodes [u] g) = get_node x g := by
  have hadd : add_nodes [u] g = { g with nodes := dictSet g.nodes u [] } := rfl
  refine ⟨?_, ?_, ?_⟩
  · rw [hadd, get_node]
    exact dictGet_dictSet_self _ _ _
  · rw [hadd]
  · intro x hx
    rw [hadd, get_node, get_node]
    exact dictGet_dictSet_ne _ _ _ _ hx

/-- C3 counterexample: with the arrow 0→1 of weight 5 in place, re-adding the
present node 1 leaves 1 in node 0's neighbour list and leaves the weight
entry for (0,1) in the store, so the arrow into 1 survives entirely. -/
theorem claim3_counterexample :
    has_node 1 (add_arrow 0 1 5 (add_nodes [0, 1] emptyGraph)).1 = true ∧
    get_node 0
        (add_nodes [1] (add_arrow 0 1 5 (add_nodes [0, 1] emptyGraph)).1)
      = some [1] ∧
    get_arrow_weight 0 1
        (add_nodes [1] (add_arrow 0 1 5 (add_nodes [0, 1] emptyGraph)).1)
      = some 5 := by
  decide

/-- Witness for C3 (amended): re-adding present node 1 in a concrete graph
resets its list, preserves the weights, and preserves node 0's list. -/
theorem claim3_readd_resets_only_own_adjacency_witness :
    get_node 1
        (add_nodes [1] (add_arrow 0 1 5 (add_nodes [0, 1] emptyGraph)).1)
      = some [] ∧
    (add_nodes [1] (add_arrow 0 1 5 (add_nodes [0, 1] emptyGraph)).1).weights
      = (add_arrow 0 1 5 (add_nodes [0, 1] emptyGraph)).1.weights ∧
    get_node 0
        (add_nodes [1] (add_arrow 0 1 5 (add_nodes [0, 1] emptyGraph)).1)
      = get_node 0 (add_arrow 0 1 5 (add_nodes [0, 1] emptyGraph)).1 :=
  ⟨(claim3_readd_resets_only_own_adjacency
      (add_arrow 0 1 5 (add_nodes [0, 1] emptyGraph)).1 1 (by decide)).1,
   (claim3_readd_resets_only_own_adjacency
      (add_arrow 0 1 5 (add_nodes [0, 1] emptyGraph)).1 1 (by decide)).2.1,
   (claim3_readd_resets_only_own_adjacency
      (add_arrow 0 1 5 (add_nodes [0, 1] emptyGraph)).1 1 (by decide)).2.2
      0 (by decide)⟩

/-- C5 (amended): for present nodes `u` and `v` such that `v` is not already
in `u`'s neighbour list (no prior arrow from `u` to `v`), `add_edge(u,v,w)`
succeeds and afterwards `has_edge(u,v)`, `has_edge(v,u)` hold and both
`get_edge_weight(u,v)` and `get_edge_weight(v,u)` return `w`; when an arrow
from `u` to `v` already exists, `add_edge` is instead a silent no-op. -/
theorem claim5_add_edge_symmetric (g : graph) (u v : Nat) (w1 : Int)
    (lu : List Nat) (hu : dictGet g.nodes u = some lu)
    (hv : has_node v g = true) (hvl : v ∉ lu) :
    (add_edge u v w1 g).2 = none ∧
    has_edge u v (add_edge u v w1 g).1 = true ∧
    has_edge v u (add_edge u v w1 g).1 = true ∧
    get_edge_weight u v (add_edge u v w1 g).1 = some w1 ∧
    get_edge_weight v u (add_edge u v w1 g).1 = some w1 := by
  have hW : (add_edge u v w1 g).2 = none ∧
      (add_edge u v w1 g).1.weights
        = dictSet (dictSet g.weights (u, v) w1) (v, u) w1 := by
    by_cases huv : u = v
    · subst huv
      rw [add_edge_self_loop g u w1 lu hu hvl]
      exact ⟨rfl, rfl⟩
    · rw [has_node, Option.isSome_iff_exists] at hv
      obtain ⟨lv, hlv⟩ := hv
      rw [add_edge_fresh g u v w1 lu lv huv hu hlv hvl]
      exact ⟨rfl, rfl⟩
  have hget1 : get_edge_weight u v (add_edge u v w1 g).1 = some w1 := by
    rw [get_edge_weight, hW.2]
    by_cases huv : u = v
    · subst huv
      exact dictGet_dictSet_self _ _ _
    · have hpair : ((u, v) : Nat × Nat) ≠ (v, u) :=
        fun hp => huv (congrArg Prod.fst hp)
      rw [dictGet_dictSet_ne _ _ _ _ hpair]
      exact dictGet_dictSet_self _ _ _
  have hget2 : get_edge_weight v u (add_edge u v w1 g).1 = some w1 := by
    rw [get_edge_weight, hW.2]
    exact dictGet_dictSet_self _ _ _
  rw [get_edge_weight] at hget1 hget2
  refine ⟨hW.1, ?_, ?_, hget1, hget2⟩ <;> simp [has_edge, hget1, hget2]

/-- C5 counterexample: nodes 0 and 1 are present and `add_edge 0 1 7` raises
no error, yet afterwards `has_edge 0 1` is false and the stored weight is
still 3, because a prior `add_arrow 0 1 3` made `add_edge` a silent no-op. -/
theorem claim5_counterexample :
    has_node 0 (add_arrow 0 1 3 (add_nodes [0, 1] emptyGraph)).1 = true ∧
    has_node 1 (add_arrow 0 1 3 (add_nodes [0, 1] emptyGraph)).1 = true ∧
    (add_edge 0 1 7 (add_arrow 0 1 3 (add_nodes [0, 1] emptyGraph)).1).2
      = none ∧
    has_edge 0 1
        (add_edge 0 1 7 (add_arrow 0 1 3 (add_nodes [0, 1] emptyGraph)).1).1
      = false ∧
    get_edge_weight 0 1
        (add_edge 0 1 7 (add_arrow 0 1 3 (add_nodes [0, 1] emptyGraph)).1).1
      = some 3 := by
  decide

/-- Witness for C5 (amended): a fresh edge of weight 7 between present nodes
0 and 1 yields `has_edge` in both directions and weight 7 both ways. -/
theorem claim5_add_edge_symmetric_witness :
    (add_edge 0 1 7 (add_nodes [0, 1] emptyGraph)).2 = none ∧
    has_edge 0 1 (add_edge 0 1 7 (add_nodes [0, 1] emptyGraph)).1 = true ∧
    has_edge 1 0 (add_edge 0 1 7 (add_nodes [0, 1] emptyGraph)).1 = true ∧
    get_edge_weight 0 1 (add_edge 0 1 7 (add_nodes [0, 1] emptyGraph)).1
      = some 7 ∧
    get_edge_weight 1 0 (add_edge 0 1 7 (add_nodes [0, 1] emptyGraph)).1
      = some 7 :=
  claim5_add_edge_symmetric (add_nodes [0, 1] emptyGraph) 0 1 7 []
    (by decide) (by decide) (by decide)

/-- C8 (amended): when `u` is a present node and `v` is not in `u`'s
neighbour list — in particular whenever no arrow from `u` to `v` was ever
recorded — both `del_edge(u,v)` and `del_arrow(u,v)` are no-ops: no error is
raised and the store is returned unchanged.  When `v` is a neighbour of `u`
but the connection is only half present (reverse adjacency or weight entries
missing), deletion raises an error instead of no-opping. -/
theorem claim8_del_absent_no_op (g : graph) (u v : Nat) (lu : List Nat)
    (hu : dictGet g.nodes u = some lu) (hvl : v ∉ lu) :
    del_edge u v g = (g, none) ∧ del_arrow u v g = (g, none) := by
  constructor <;> simp [del_edge, del_arrow, hu, hvl]

/-- C8 counterexample: after `add_nodes [0,1]; add_arrow 0 1 3` no edge (0,1)
exists, yet `del_edge 0 1` is not a no-op: it raises ValueError and mutates
the store (1 has been removed from node 0's neighbour list). -/
theorem claim8_counterexample :
    has_edge 0 1 (add_arrow 0 1 3 (add_nodes [0, 1] emptyGraph)).1 = false ∧
    ¬ edge_exists (add_arrow 0 1 3 (add_nodes [0, 1] emptyGraph)).1 0 1 ∧
    (del_edge 0 1 (add_arrow 0 1 3 (add_nodes [0, 1] emptyGraph)).1).2
      = some PyErr.valueError ∧
    (del_edge 0 1 (add_arrow 0 1 3 (add_nodes [0, 1] emptyGraph)).1).1
      ≠ (add_arrow 0 1 3 (add_nodes [0, 1] emptyGraph)).1 := by
  decide

/-- Witness for C8 (amended): deleting the absent edge and arrow (0,1) on a
concrete two-node graph with no arrows returns the store unchanged. -/
theorem claim8_del_absent_no_op_witness :
    del_edge 0 1 (add_nodes [0, 1] emptyGraph)
      = (add_nodes [0, 1] emptyGraph, none) ∧
    del_arrow 0 1 (add_nodes [0, 1] emptyGraph)
      = (add_nodes [0, 1] emptyGraph, none) :=
  claim8_del_absent_no_op (add_nodes [0, 1] emptyGraph) 0 1 []
    (by decide) (by decide)

/-!
Reference-semantics model for `get_node`.  In Python, `self.nodes[node]` is
an object reference; `get_node` returns that reference, not a copy.  To
reason about aliasing we refine the store with an explicit heap: `nodesH`
binds each node to the identity of a list object, `heap` holds the list
objects, and `nextCell` supplies fresh identities.
-/

/-- Heap-level state of a `graph` object, distinguishing list identity from
list contents. -/
structure graphH where
  nodesH : List (Nat × Nat)
  heap : List (Nat × List Nat)
  nextCell : Nat
deriving DecidableEq, Repr

/-- `graph.__init__` at heap level. -/
def emptyGraphH : graphH := ⟨[], [], 0⟩

/-- `graph.add_nodes(nodelist)` at heap level: each `self.nodes[each] = []`
binds `each` to a freshly allocated empty list object. -/
def add_nodesH (nodelist : List Nat) (g : graphH) : graphH :=
  nodelist.foldl
    (fun g1 each =>
      { nodesH := dictSet g1.nodesH each g1.nextCell,
        heap := dictSet g1.heap g1.nextCell [],
        nextCell := g1.nextCell + 1 }) g

/-- `graph.get_node(node)` at heap level: `return self.nodes[node]` hands the
caller the stored list object itself — its identity, not a copy of its
contents. -/
def get_nodeH (node : Nat) (g : graphH) : Option Nat :=
  dictGet g.nodesH node

/-- A caller mutating a list object it received: `lst.append(x)` on the
object with identity `c`. -/
def heapAppend (c x : Nat) (g : graphH) : graphH :=
  match dictGet g.heap c with
  | none => g
  | some l => { g with heap := dictSet g.heap c (l ++ [x]) }

/-- The neighbour list the store itself sees for `node`: the contents of the
object bound to `node` in the `nodes` dictionary. -/
def storeNeighbors (node : Nat) (g : graphH) : Option (List Nat) :=
  match dictGet g.nodesH node with
  | none => none
  | some c => dictGet g.heap c

/-- C4 (amended): `get_node(u)` returns a live alias of `u`'s internal
neighbour list, not an owned copy: appending an element through the returned
list object changes the adjacency state the store itself sees for `u`. -/
theorem claim4_get_node_live_alias (g : graphH) (u c x : Nat) (l : List Nat)
    (h1 : get_nodeH u g = some c) (h2 : dictGet g.heap c = some l) :
    storeNeighbors u (heapAppend c x g) = some (l ++ [x]) := by
  rw [get_nodeH] at h1
  rw [heapAppend]
  rw [h2]
  rw [storeNeighbors]
  simp only [h1]
  exact dictGet_dictSet_self _ _ _

/-- C4 counterexample: on the one-node heap-level store, the caller appends 5
through the object returned by `get_node 0` and the store's own adjacency
for node 0 changes from `[]` to `[5]` — the returned list is a live alias,
not an owned copy, refuting the claim that mutation leaves the store
unchanged. -/
theorem claim4_counterexample :
    get_nodeH 0 (add_nodesH [0] emptyGraphH) = some 0 ∧
    storeNeighbors 0 (add_nodesH [0] emptyGraphH) = some [] ∧
    storeNeighbors 0 (heapAppend 0 5 (add_nodesH [0] emptyGraphH))
      = some [5] := by
  decide

/-- Witness for C4 (amended) at the concrete one-node store: appending 5
through the returned object makes the store see `[5]`. -/
theorem claim4_get_node_live_alias_witness :
    storeNeighbors 0 (heapAppend 0 5 (add_nodesH [0] emptyGraphH))
      = some ([] ++ [5]) :=
  claim4_get_node_live_alias (add_nodesH [0] emptyGraphH) 0 0 5 []
    (by decide) (by decide)

/-- C7 (amended): for distinct present nodes `u` and `v` with no prior arrow
between them in either direction (and well-formed weight keys, as a Python
dictionary guarantees), `del_edge(u,v)` after `add_edge(u,v,w)` raises no
error and removes the edge in both directions: afterwards `v` is not in `u`'s
neighbour list, `u` is not in `v`'s neighbour list, and both weight lookups
fail.  When an arrow between `u` and `v` already existed in one direction
only, the `add_edge` is a silent no-op and the subsequent `del_edge` raises
instead. -/
theorem claim7_del_edge_removes_both_directions (g : graph) (u v : Nat)
    (w1 : Int) (lu lv : List Nat) (huv : u ≠ v)
    (hu : dictGet g.nodes u = some lu) (hv : dictGet g.nodes v = some lv)
    (hvl : v ∉ lu) (hul : u ∉ lv) (hwf : keysNodup g.weights) :
    (del_edge u v (add_edge u v w1 g).1).2 = none ∧
    (∃ lu1, get_node u (del_edge u v (add_edge u v w1 g).1).1 = some lu1 ∧
      v ∉ lu1) ∧
    (∃ lv1, get_node v (del_edge u v (add_edge u v w1 g).1).1 = some lv1 ∧
      u ∉ lv1) ∧
    get_edge_weight u v (del_edge u v (add_edge u v w1 g).1).1 = none ∧
    get_edge_weight v u (del_edge u v (add_edge u v w1 g).1).1 = none := by
  have hpair : ((u, v) : Nat × Nat) ≠ (v, u) :=
    fun hp => huv (congrArg Prod.fst hp)
  have hpair2 : ((v, u) : Nat × Nat) ≠ (u, v) :=
    fun hp => huv (congrArg Prod.snd hp)
  have hW2 : keysNodup (dictSet (dictSet g.weights (u, v) w1) (v, u) w1) :=
    keysNodup_dictSet _ _ _ (keysNodup_dictSet _ _ _ hwf)
  rw [add_edge_fresh g u v w1 lu lv huv hu hv hvl]
  have hA : dictGet (dictSet (dictSet g.nodes u (lu ++ [v])) v (lv ++ [u])) u
      = some (lu ++ [v]) := by
    rw [dictGet_dictSet_ne _ _ _ _ huv]
    exact dictGet_dictSet_self _ _ _
  have hvm : v ∈ lu ++ [v] := by simp
  have hrem1 : listRemove (lu ++ [v]) v = lu := listRemove_append_self lu v hvl
  have hB : dictGet (dictSet (dictSet (dictSet g.nodes u (lu ++ [v])) v
      (lv ++ [u])) u lu) v = some (lv ++ [u]) := by
    rw [dictGet_dictSet_ne _ _ _ _ (Ne.symm huv)]
    exact dictGet_dictSet_self _ _ _
  have hum : u ∈ lv ++ [u] := by simp
  have hrem2 : listRemove (lv ++ [u]) u = lv := listRemove_append_self lv u hul
  have hC : dictGet (dictSet (dictSet g.weights (u, v) w1) (v, u) w1) (u, v)
      = some w1 := by
    rw [dictGet_dictSet_ne _ _ _ _ hpair]
    exact dictGet_dictSet_self _ _ _
  have hD : dictGet (dictDel (dictSet (dictSet g.weights (u, v) w1) (v, u) w1)
      (u, v)) (v, u) = some w1 := by
    rw [dictGet_dictDel_ne _ _ _ hpair2]
    exact dictGet_dictSet_self _ _ _
  simp only [del_edge, hA, hrem1, hB, hrem2, hC, hD, hvm, hum, if_true]
  refine ⟨trivial, ⟨lu, ?_, hvl⟩, ⟨lv, ?_, hul⟩, ?_, ?_⟩
  · rw [get_node]
    rw [dictGet_dictSet_ne _ _ _ _ huv]
    exact dictGet_dictSet_self _ _ _
  · rw [get_node]
    exact dictGet_dictSet_self _ _ _
  · rw [get_edge_weight]
    rw [dictGet_dictDel_ne _ _ _ hpair]
    exact dictGet_dictDel_self _ _ hW2
  · rw [get_edge_weight]
    exact dictGet_dictDel_self _ _ (keysNodup_dictDel _ _ hW2)

/-- C7 counterexample: with the lone arrow 0→1 of weight 3 in place,
`add_edge 0 1 7` is a silent no-op and the subsequent `del_edge 0 1` raises
ValueError; afterwards the weight lookup for (0,1) still returns 3 instead of
failing, refuting the claim for present nodes 0 and 1. -/
theorem claim7_counterexample :
    (add_edge 0 1 7 (add_arrow 0 1 3 (add_nodes [0, 1] emptyGraph)).1).2
      = none ∧
    (del_edge 0 1
        (add_edge 0 1 7 (add_arrow 0 1 3 (add_nodes [0, 1] emptyGraph)).1).1).2
      = some PyErr.valueError ∧
    get_edge_weight 0 1
        (del_edge 0 1
          (add_edge 0 1 7
            (add_arrow 0 1 3 (add_nodes [0, 1] emptyGraph)).1).1).1
      = some 3 := by
  decide

/-- Witness for C7 (amended): the full add-then-delete lifecycle of the edge
(0,1) on the concrete two-node graph succeeds and removes both directions. -/
theorem claim7_del_edge_removes_both_directions_witness :
    (del_edge 0 1 (add_edge 0 1 7 (add_nodes [0, 1] emptyGraph)).1).2
      = none ∧
    (∃ lu1, get_node 0
        (del_edge 0 1 (add_edge 0 1 7 (add_nodes [0, 1] emptyGraph)).1).1
      = some lu1 ∧ 1 ∉ lu1) ∧
    (∃ lv1, get_node 1
        (del_edge 0 1 (add_edge 0 1 7 (add_nodes [0, 1] emptyGraph)).1).1
      = some lv1 ∧ 0 ∉ lv1) ∧
    get_edge_weight 0 1
        (del_edge 0 1 (add_edge 0 1 7 (add_nodes [0, 1] emptyGraph)).1).1
      = none ∧
    get_edge_weight 1 0
        (del_edge 0 1 (add_edge 0 1 7 (add_nodes [0, 1] emptyGraph)).1).1
      = none :=
  claim7_del_edge_removes_both_directions (add_nodes [0, 1] emptyGraph) 0 1 7
    [] [] (by decide) (by decide) (by decide) (by decide) (by decide)
    (by decide)

end PyGraph
